import Mathlib

/-!
Verification development for the plant_diagnosis repository.

The repository is a Python batch pipeline (src/plant_diagnosis.py) with an HTTP
front-end (src/api/index.py).  The definitions below are a shallow embedding of
that code: every external collaborator (Supabase storage and database, the
Gemini inference service, the HTTP transport, PIL image decoding) is an oracle
supplied through an `Env` record whose operations may either return a value or
raise (modelled with `Except String`).  Python `try ... except` blocks are
modelled with the explicit `pyTry` combinator, Python truthiness of the values
that actually flow through the code (bytes, strings, lists, None) is modelled
by explicit emptiness tests, and Python's `json.loads` is modelled by the
executable `parseJson` below.
-/

namespace PlantDiagnosis

/-- The set of characters stripped by Python's `str.strip()` with no argument
(ASCII whitespace; the rare `\x0b`/`\x0c` members are included for fidelity). -/
def isPyWs (c : Char) : Bool :=
  c = ' ' || c = '\t' || c = '\n' || c = '\r' || c = Char.ofNat 11 || c = Char.ofNat 12

/-- Python `str.strip()` on the character list of a string: drop whitespace from
the front, then from the back (implemented by reversing). -/
def stripChars (l : List Char) : List Char :=
  ((l.dropWhile isPyWs).reverse.dropWhile isPyWs).reverse

/-- Python `str.strip()`. -/
def pyStrip (s : String) : String :=
  String.mk (stripChars s.data)

/-- JSON values as produced by Python's `json.loads`.  Numbers are modelled as
integers only: no reply string appearing in a theorem of this file contains a
fractional or exponent literal, and all universally quantified statements are
insensitive to this restriction because the same `parseJson` appears on both
sides. -/
inductive Json where
  | null : Json
  | bool (b : Bool) : Json
  | num (n : Int) : Json
  | str (s : String) : Json
  | arr (elts : List Json) : Json
  | obj (fields : List (String × Json)) : Json

/-- JSON insignificant whitespace (RFC 8259: space, tab, newline, carriage
return), as skipped by `json.loads`. -/
def isJsonWs (c : Char) : Bool :=
  c = ' ' || c = '\t' || c = '\n' || c = '\r'

/-- Skip JSON whitespace at the front of the input. -/
def skipWs : List Char → List Char
  | [] => []
  | c :: l => if isJsonWs c then skipWs l else c :: l

/-- Numeric value of a list of decimal digit characters. -/
def natOfDigits (l : List Char) : Nat :=
  l.foldl (fun a c => a * 10 + (c.toNat - 48)) 0

/-- Parse a nonempty run of decimal digits. -/
def parseDigits (l : List Char) : Option (Nat × List Char) :=
  let ds := l.takeWhile (fun c => c.isDigit)
  if ds.isEmpty then none else some (natOfDigits ds, l.drop ds.length)

/-- Parse the body of a JSON string literal after the opening quote, handling
the simple escape sequences (`\"`, `\\`, `\/`, `\n`, `\t`, `\r`, `\b`, `\f`);
`\uXXXX` escapes are outside the modelled fragment and fail the parse. -/
def parseStrBody : List Char → Option (List Char × List Char)
  | [] => none
  | c :: l =>
    if c = '"' then some ([], l)
    else if c = '\\' then
      match l with
      | [] => none
      | d :: l2 =>
        let esc : Option Char :=
          if d = '"' then some '"'
          else if d = '\\' then some '\\'
          else if d = '/' then some '/'
          else if d = 'n' then some '\n'
          else if d = 't' then some '\t'
          else if d = 'r' then some '\r'
          else if d = 'b' then some (Char.ofNat 8)
          else if d = 'f' then some (Char.ofNat 12)
          else none
        match esc with
        | none => none
        | some e =>
          match parseStrBody l2 with
          | none => none
          | some (body, rest) => some (e :: body, rest)
    else
      match parseStrBody l with
      | none => none
      | some (body, rest) => some (c :: body, rest)

/-- Check that the input starts with the given literal word and return the
remainder. -/
def expectWord : List Char → List Char → Option (List Char)
  | [], l => some l
  | _, [] => none
  | w :: ws, c :: l => if c = w then expectWord ws l else none

mutual

/-- Parse one JSON value (fuel-bounded recursive descent, mirroring the
grammar accepted by `json.loads` on the integer fragment). -/
def parseVal : Nat → List Char → Option (Json × List Char)
  | 0, _ => none
  | fuel + 1, l =>
    match skipWs l with
    | [] => none
    | c :: rest =>
      if c = 'n' then
        match expectWord ['u', 'l', 'l'] rest with
        | some rest2 => some (Json.null, rest2)
        | none => none
      else if c = 't' then
        match expectWord ['r', 'u', 'e'] rest with
        | some rest2 => some (Json.bool true, rest2)
        | none => none
      else if c = 'f' then
        match expectWord ['a', 'l', 's', 'e'] rest with
        | some rest2 => some (Json.bool false, rest2)
        | none => none
      else if c = '"' then
        match parseStrBody rest with
        | some (body, rest2) => some (Json.str (String.mk body), rest2)
        | none => none
      else if c = '-' then
        match parseDigits rest with
        | some (n, rest2) => some (Json.num (-(n : Int)), rest2)
        | none => none
      else if c.isDigit then
        match parseDigits (c :: rest) with
        | some (n, rest2) => some (Json.num (n : Int), rest2)
        | none => none
      else if c = '[' then
        match skipWs rest with
        | ']' :: rest2 => some (Json.arr [], rest2)
        | _ =>
          match parseArrItems fuel rest with
          | some (elts, rest2) => some (Json.arr elts, rest2)
          | none => none
      else if c = Char.ofNat 123 then
        match skipWs rest with
        | c2 :: rest2 =>
          if c2 = Char.ofNat 125 then some (Json.obj [], rest2)
          else
            match parseObjItems fuel rest with
            | some (fields, rest3) => some (Json.obj fields, rest3)
            | none => none
        | [] => none
      else none

/-- Parse a comma-separated list of array elements followed by the closing
bracket. -/
def parseArrItems : Nat → List Char → Option (List Json × List Char)
  | 0, _ => none
  | fuel + 1, l =>
    match parseVal fuel l with
    | none => none
    | some (j, rest) =>
      match skipWs rest with
      | ',' :: rest2 =>
        match parseArrItems fuel rest2 with
        | some (elts, rest3) => some (j :: elts, rest3)
        | none => none
      | ']' :: rest2 => some ([j], rest2)
      | _ => none

/-- Parse a comma-separated list of object members followed by the closing
brace. -/
def parseObjItems : Nat → List Char → Option (List (String × Json) × List Char)
  | 0, _ => none
  | fuel + 1, l =>
    match skipWs l with
    | '"' :: rest =>
      match parseStrBody rest with
      | none => none
      | some (key, rest2) =>
        match skipWs rest2 with
        | ':' :: rest3 =>
          match parseVal fuel rest3 with
          | none => none
          | some (v, rest4) =>
            match skipWs rest4 with
            | ',' :: rest5 =>
              match parseObjItems fuel rest5 with
              | some (fields, rest6) => some ((String.mk key, v) :: fields, rest6)
              | none => none
            | c :: rest5 =>
              if c = Char.ofNat 125 then some ([(String.mk key, v)], rest5)
              else none
            | [] => none
        | _ => none
    | _ => none

end

/-- Python's `json.loads`: parse one JSON value and require that only
whitespace follows; on any failure `json.loads` raises `JSONDecodeError`,
modelled here as `none`. -/
def parseJson (s : String) : Option Json :=
  match parseVal (2 * s.data.length + 4) s.data with
  | none => none
  | some (j, rest) => if (skipWs rest).isEmpty then some j else none

/-- The backtick character that makes up markdown code-fence markers
(`Char.ofNat 96` is the backtick). -/
def btick : Char := Char.ofNat 96

/-- Character list of the fence marker with language tag that the code tests
first, Python's `"```json"` (three backticks then the letters json). -/
def fenceJson : List Char := btick :: btick :: btick :: 'j' :: 's' :: 'o' :: 'n' :: []

/-- Character list of the bare fence marker, Python's three backticks. -/
def fence3 : List Char := btick :: btick :: btick :: []

/-- The markdown-fence cleanup performed by `diagnose_plant`
(plant_diagnosis.py lines 166-179): strip the reply, drop a leading
three-backtick-json or bare three-backtick marker (checked in that order,
once), drop a trailing three-backtick marker, and strip again.  Python's
slicing by `len` is character-based, matching `List.drop`/`List.take`. -/
def cleanJsonText (s : String) : String :=
  let r := stripChars s.data
  let c1 :=
    if fenceJson.isPrefixOf r then r.drop fenceJson.length
    else if fence3.isPrefixOf r then r.drop fence3.length
    else r
  let c2 := if fence3.isSuffixOf c1 then c1.take (c1.length - fence3.length) else c1
  String.mk (stripChars c2)

/-- A reply wrapped in a markdown code fence with the given language tag:
three backticks, the tag, a newline, the reply, a newline, three backticks. -/
def wrapFenced (tag s : String) : String :=
  String.mk (fence3 ++ tag.data ++ '\n' :: s.data ++ '\n' :: fence3)

/-- Raw bytes flowing between the storage service, HTTP transport and PIL. -/
abbrev Bytes := List Nat

/-- A decoded PIL image; its contents are opaque to the pipeline, which only
passes it from `Image.open` to the inference call. -/
structure PilImage where
  raw : Bytes
  deriving DecidableEq

/-- The dictionary returned by Supabase `create_signed_url` (plant_diagnosis.py
line 103: it holds a possibly absent `signedURL` and a possibly absent
`error`). -/
structure SignedUrlResp where
  signedURL : Option String
  errorField : Option String

/-- A `requests` HTTP response: status code and body bytes. -/
structure HttpResp where
  status : Nat
  content : Bytes

/-- A row of the `images` table as returned by the database.  A `none` in
`idKey`, `storagePathKey` or `titleKey` models the dictionary key being absent
(so that Python subscripting raises `KeyError`); a present-but-null or empty
`storage_path` value is modelled as the empty string, which is exactly the set
of values Python's `if not storage_path` treats as missing. -/
structure DbRow where
  idKey : Option String
  storagePathKey : Option String
  titleKey : Option String
  diagnosis : Option String
  updatedAt : Option String
  deriving DecidableEq

/-- The response object of a Supabase `update ... execute()` call: its `data`
attribute is a possibly absent list of affected rows. -/
structure UpdateResult where
  data : Option (List DbRow)

/-- The state of the external `images` table. -/
structure World where
  rows : List DbRow
  deriving DecidableEq

/-- The external collaborators of the pipeline.  Every operation may either
return a value (`Except.ok`) or raise a Python exception (`Except.error` with
the exception text).  Database operations additionally act on the table state
`World`, so that adversarial behaviours and the documented Supabase semantics
are both instances. -/
structure Env where
  /-- Supabase `storage.from_('images').download(path)`: bytes, or `None`, or raises. -/
  download : String → Except String (Option Bytes)
  /-- Supabase `storage.from_('images').create_signed_url(path, expiry)`. -/
  createSignedUrl : String → Nat → Except String (Option SignedUrlResp)
  /-- `requests.get(url, timeout)`. -/
  httpGet : String → Nat → Except String HttpResp
  /-- PIL `Image.open(BytesIO(bytes))`. -/
  openImage : Bytes → Except String PilImage
  /-- Gemini `model.generate_content([prompt, image])` followed by `.text`. -/
  generateContent : String → PilImage → Except String String
  /-- Supabase `storage.from_('images').list()`. -/
  listBucket : Except String (List String)
  /-- Supabase `table('images').select('*').is_('diagnosis','null').execute().data`. -/
  selectPending : World → Except String (Option (List DbRow))
  /-- Supabase `table('images').update({diagnosis, updated_at}).eq('id', id).execute()`:
  takes the current table state, the id, the diagnosis text and the timestamp,
  and returns the call result together with the new table state. -/
  updateImages : World → String → String → String → Except String UpdateResult × World
  /-- `datetime.utcnow().isoformat()`. -/
  now : String

/-- A Python `try ... except Exception` block: run the body; if it raises,
run the handler on the exception text. -/
def pyTry {α : Type} (body : Except String α) (handler : String → Except String α) :
    Except String α :=
  match body with
  | .ok a => .ok a
  | .error e => handler e

/-- Method 1 of `get_image_from_storage` (plant_diagnosis.py lines 84-98), the
body of its `try`: direct authenticated download, then `Image.open`; `some`
models the early `return image`, `none` models falling through to method 2
(download returned `None` or falsy empty bytes). -/
def fetchDirect (env : Env) (path : String) : Except String (Option PilImage) :=
  match env.download path with
  | .error e => .error e
  | .ok none => .ok none
  | .ok (some bs) =>
    if bs.isEmpty then .ok none
    else
      match env.openImage bs with
      | .error e => .error e
      | .ok img => .ok (some img)

/-- Method 2 of `get_image_from_storage` (plant_diagnosis.py lines 101-128),
the body of its `try`: mint a signed URL with fixed 3600-second expiry; if the
response and its `signedURL` are truthy, GET it with a 30-second timeout,
`raise_for_status`, and decode; `none` models every logged fall-through. -/
def fetchSigned (env : Env) (path : String) : Except String (Option PilImage) :=
  match env.createSignedUrl path 3600 with
  | .error e => .error e
  | .ok none => .ok none
  | .ok (some resp) =>
    match resp.signedURL with
    | none => .ok none
    | some url =>
      if url = "" then .ok none
      else
        match env.httpGet url 30 with
        | .error e => .error e
        | .ok r =>
          if 400 ≤ r.status && r.status < 600 then .error "HTTPError"
          else
            match env.openImage r.content with
            | .error e => .error e
            | .ok img => .ok (some img)

/-- `PlantDiagnosisSystem.get_image_from_storage` (plant_diagnosis.py lines
78-136): try the direct download, catching any exception; if it produced no
image, try the signed-URL method, catching any exception; otherwise return
`None`; the whole body is additionally wrapped in a catch-all returning
`None`.  The outer `Except` layer records whether the call as a whole raises
towards the caller. -/
def get_image_from_storage (env : Env) (path : String) : Except String (Option PilImage) :=
  pyTry
    (match pyTry (fetchDirect env path) (fun _ => .ok none) with
     | .ok (some img) => .ok (some img)
     | .ok none =>
       (match pyTry (fetchSigned env path) (fun _ => .ok none) with
        | .ok (some img) => .ok (some img)
        | .ok none => .ok none
        | .error e => .error e)
     | .error e => .error e)
    (fun _ => .ok none)

/-- The value of `get_image_from_storage` as its callers consume it (they never
see an exception; the catch-all branch is proved unreachable in the safety
theorem below). -/
def fetchImage (env : Env) (path : String) : Option PilImage :=
  match get_image_from_storage env path with
  | .ok r => r
  | .error _ => none

/-- `PlantDiagnosisSystem.test_storage_connection` (plant_diagnosis.py lines
138-154): list the bucket, return `True`; on any exception return `False`. -/
def test_storage_connection (env : Env) : Bool :=
  match env.listBucket with
  | .ok _ => true
  | .error _ => false

/-- The fixed instruction template `diagnosis_prompt` (plant_diagnosis.py
lines 43-76).  The template is a long constant prose string whose exact text
is immaterial to every claim; it is abbreviated here to its opening sentence. -/
def diagnosis_prompt : String :=
  "You are an expert botanist and plant pathologist."

/-- The composed prompt of `diagnose_plant` (plant_diagnosis.py line 160). -/
def mkFullPrompt (userPrompt : String) : String :=
  diagnosis_prompt ++ "\n\nUser's description: " ++ userPrompt

/-- `PlantDiagnosisSystem.diagnose_plant` (plant_diagnosis.py lines 156-194):
compose the prompt, call the inference service, strip the reply and its code
fences, parse the result as JSON; return the cleaned text on success and
`None` on parse failure; any exception in the body (inference call included)
is caught and returns `None`.  `cleanJsonText` bundles the `strip` at line 166
with the fence stripping and the final `strip`. -/
def diagnose_plant (env : Env) (image : PilImage) (userPrompt : String) : Option String :=
  match env.generateContent (mkFullPrompt userPrompt) image with
  | .error _ => none
  | .ok replyText =>
    let cleaned := cleanJsonText replyText
    match parseJson cleaned with
    | some _ => some cleaned
    | none => none

/-- `PlantDiagnosisSystem.update_diagnosis_in_db` (plant_diagnosis.py lines
196-213): issue the conditional update with the diagnosis text and the
current timestamp; return `True` exactly when the call succeeds and its
`data` is truthy (a nonempty list); any exception returns `False`. -/
def update_diagnosis_in_db (env : Env) (w : World) (imageId diagnosis : String) :
    Bool × World :=
  match env.updateImages w imageId diagnosis env.now with
  | (.error _, w2) => (false, w2)
  | (.ok res, w2) =>
    match res.data with
    | none => (false, w2)
    | some l => (!l.isEmpty, w2)

/-- `PlantDiagnosisSystem.get_new_images` (plant_diagnosis.py lines 215-222):
query records whose diagnosis is null; return `result.data` when truthy and
the empty list when `data` is falsy or the query raises. -/
def get_new_images (env : Env) (w : World) : List DbRow :=
  match env.selectPending w with
  | .error _ => []
  | .ok none => []
  | .ok (some l) => l

/-- A per-record entry of the HTTP orchestrator's `results` list
(api/index.py lines 33-57): a success dictionary carrying the parsed
diagnosis, or an error dictionary carrying the record's id and a message. -/
inductive Outcome where
  | success (id : String) (diagnosis : Json)
  | error (id : String) (message : String)

/-- The id field carried by an outcome entry. -/
def outcomeId : Outcome → String
  | .success i _ => i
  | .error i _ => i

/-- Result of processing one record in `handle_diagnosis_request`: the
appended outcome, the increment of `processed_count` (0 or 1), the list of
`update_diagnosis_in_db` invocations made (id and diagnosis text), and the
table state afterwards. -/
structure RecStep where
  outcome : Outcome
  inc : Nat
  calls : List (String × String)
  world : World

/-- The loop body of `handle_diagnosis_request` (api/index.py lines 26-57) for
one record: read `id` (a missing key raises, caught at the record boundary
with id `"unknown"`), read `storage_path` (a missing key raises, caught with
the real id), reject a falsy storage path, fetch the image, request the
diagnosis, and invoke the database update, appending the matching outcome.
The success outcome carries `json.loads(diagnosis)`; the defensive error
branch for an unparseable stored diagnosis is unreachable because
`diagnose_plant` only returns validated text. -/
def processOneApi (env : Env) (w : World) (r : DbRow) : RecStep :=
  match r.idKey with
  | none => ⟨.error "unknown" "KeyError: id", 0, [], w⟩
  | some id =>
    match r.storagePathKey with
    | none => ⟨.error id "KeyError: storage_path", 0, [], w⟩
    | some sp =>
      if sp = "" then ⟨.error id "Missing storage path", 0, [], w⟩
      else
        match fetchImage env sp with
        | none => ⟨.error id "Failed to download image", 0, [], w⟩
        | some img =>
          match diagnose_plant env img (r.titleKey.getD "") with
          | none => ⟨.error id "Failed to generate diagnosis", 0, [], w⟩
          | some diag =>
            match update_diagnosis_in_db env w id diag with
            | (true, w2) =>
              match parseJson diag with
              | some j => ⟨.success id j, 1, [(id, diag)], w2⟩
              | none => ⟨.error id "JSONDecodeError", 1, [(id, diag)], w2⟩
            | (false, w2) => ⟨.error id "Failed to update database", 0, [(id, diag)], w2⟩

/-- The record loop of `handle_diagnosis_request`: sequential processing,
collecting the outcomes in order, summing the processed count, and threading
the table state. -/
def runRecordsApi (env : Env) : World → List DbRow → List Outcome × Nat × World
  | w, [] => ([], 0, w)
  | w, r :: rest =>
    let s := processOneApi env w r
    let (os, c, w2) := runRecordsApi env s.world rest
    (s.outcome :: os, s.inc + c, w2)

/-- The aggregate summary returned by `handle_diagnosis_request`: status,
message, processed count, and the per-record outcomes (absent in the
no-new-images reply). -/
structure Summary where
  status : String
  message : String
  processed : Nat
  results : Option (List Outcome)

/-- The reply of `handle_diagnosis_request` when the pending query returns no
records (api/index.py line 21). -/
def emptySummary : Summary :=
  ⟨"success", "No new images to process", 0, none⟩

/-- `handle_diagnosis_request` (api/index.py lines 14-67): query the pending
records; reply with `emptySummary` when there are none; otherwise process
each record and assemble the aggregate summary.  Nothing inside the loop or
the query can raise (every callee catches internally), so the function's
outer catch-all is unreachable and the function is total. -/
def handle_diagnosis_request (env : Env) (w : World) : Summary × World :=
  let newImages := get_new_images env w
  if newImages.isEmpty then (emptySummary, w)
  else
    let (os, c, w2) := runRecordsApi env w newImages
    (⟨"success",
      "Processed " ++ toString c ++ " of " ++ toString newImages.length ++ " images",
      c, some os⟩, w2)

/-- The loop body of `process_new_images` (plant_diagnosis.py lines 234-268)
for one record: same guards as the HTTP loop (missing keys are caught at the
record boundary and the loop continues), returning the list of
`update_diagnosis_in_db` invocations made and the table state afterwards. -/
def processOneOnce (env : Env) (w : World) (r : DbRow) : List (String × String) × World :=
  match r.idKey with
  | none => ([], w)
  | some id =>
    match r.storagePathKey with
    | none => ([], w)
    | some sp =>
      if sp = "" then ([], w)
      else
        match fetchImage env sp with
        | none => ([], w)
        | some img =>
          match diagnose_plant env img (r.titleKey.getD "") with
          | none => ([], w)
          | some diag =>
            let (_, w2) := update_diagnosis_in_db env w id diag
            ([(id, diag)], w2)

/-- The record loop of `process_new_images`, threading the table state and
collecting the update invocations (the `time.sleep(2)` between records has no
observable effect in this model). -/
def runRecordsOnce (env : Env) : World → List DbRow → List (String × String) × World
  | w, [] => ([], w)
  | w, r :: rest =>
    let (cs, w2) := processOneOnce env w r
    let (cs2, w3) := runRecordsOnce env w2 rest
    (cs ++ cs2, w3)

/-- `PlantDiagnosisSystem.process_new_images` (plant_diagnosis.py lines
224-268): query the pending records and process each in turn. -/
def process_new_images (env : Env) (w : World) : World :=
  let newImages := get_new_images env w
  if newImages.isEmpty then w
  else (runRecordsOnce env w newImages).2

/-- `PlantDiagnosisSystem.run_once` (plant_diagnosis.py lines 286-295): test
the storage connection first and return immediately when the test fails;
otherwise run `process_new_images`. -/
def run_once (env : Env) (w : World) : World :=
  if test_storage_connection env then process_new_images env w else w

/-- A response body produced by the HTTP surface (always serialized as JSON by
`json.dumps`, which cannot fail on these dictionaries): the orchestrator
summary, a status-and-message dictionary, the test-connection dictionary, or
the is-running dictionary with a timestamp. -/
inductive Resp where
  | summary (s : Summary)
  | simple (status message : String)
  | conn (status connection : String)
  | running (message timestamp : String)

/-- `handle_test_connection` (api/index.py lines 69-72). -/
def handle_test_connection (env : Env) : Resp :=
  let ok := test_storage_connection env
  .conn (if ok then "success" else "error") (if ok then "ok" else "failed")

/-- ASCII lowercase of one character (header names are ASCII). -/
def lowerChar (c : Char) : Char :=
  if 'A' ≤ c && c ≤ 'Z' then Char.ofNat (c.toNat + 32) else c

/-- ASCII lowercase of a string, used for case-insensitive header names. -/
def lowerStr (s : String) : String :=
  String.mk (s.data.map lowerChar)

/-- Case-insensitive lookup in a header list, as Python's `email`-based
`self.headers[name]` performs; absent headers yield `None` (no exception). -/
def headerGet : List (String × String) → String → Option String
  | [], _ => none
  | (k, v) :: rest, key => if lowerStr k = lowerStr key then some v else headerGet rest key

/-- Python `int(s)` on a string: strip whitespace, accept an optional sign
followed by at least one digit, raise `ValueError` otherwise (digit-group
underscores are outside the modelled fragment). -/
def pyIntOfString (s : String) : Except String Int :=
  let l := stripChars s.data
  let core : Option (Bool × List Char) :=
    match l with
    | '-' :: t => some (true, t)
    | '+' :: t => some (false, t)
    | _ => some (false, l)
  match core with
  | some (neg, ds) =>
    if ds.isEmpty || !(ds.all (fun c => c.isDigit)) then
      .error "ValueError: invalid literal for int"
    else
      let n : Int := (natOfDigits ds : Nat)
      .ok (if neg then -n else n)
  | none => .error "ValueError: invalid literal for int"

/-- `rfile.read(n)` / `wsgi.input.read(n)` on the request body: a nonnegative
count reads at most that many characters; a negative count reads the whole
body. -/
def pyTake (body : String) (n : Int) : String :=
  if n < 0 then body else String.mk (body.data.take n.toNat)

/-- Python dict lookup with default, `data.get(key, default)`, on the field
list produced by `parseJson` (later duplicates win, as in `json.loads`). -/
def jlookup (fields : List (String × Json)) (key : String) : Option Json :=
  fields.foldl (fun acc p => if p.1 = key then some p.2 else acc) none

/-- Python equality test between a JSON value and a string literal
(`action == 'process'`): true only for the equal string. -/
def jsonIsStr (j : Json) (s : String) : Bool :=
  match j with
  | .str t => t = s
  | _ => false

/-- The action dispatch shared by both HTTP entry points (api/index.py lines
103-108 and 128-133), applied to the `action` value read from the parsed
request body. -/
def runAction (env : Env) (w : World) (action : Json) : Resp × World :=
  if jsonIsStr action "process" then
    let (s, w2) := handle_diagnosis_request env w
    (.summary s, w2)
  else if jsonIsStr action "test_connection" then
    (handle_test_connection env, w)
  else (.simple "error" "Invalid action", w)

/-- The `try` body shared shape of `do_POST` (api/index.py lines 99-113):
parse the body as JSON (`JSONDecodeError` is caught separately and yields the
fixed message), read `action` with default `""` (a non-dictionary body makes
`data.get` raise `AttributeError`, caught by the generic handler), and
dispatch. -/
def dispatchPost (env : Env) (w : World) (postData : String) : Resp × World :=
  match parseJson postData with
  | none => (.simple "error" "Invalid JSON data", w)
  | some (.obj fields) => runAction env w ((jlookup fields "action").getD (Json.str ""))
  | some _ => (.simple "error" "AttributeError: get", w)

/-- `Handler.do_POST` (api/index.py lines 90-116): the 200 status line and
headers are sent unconditionally, then `int(self.headers['Content-Length'])`
runs OUTSIDE any `try` (an absent header gives `None` and `int(None)` raises
`TypeError`; a malformed value raises `ValueError`), then the body is read and
dispatched inside the protective `try`.  An `Except.error` result models the
exception escaping `do_POST`, in which case no JSON body is written. -/
def do_POST (env : Env) (w : World) (headers : List (String × String)) (body : String) :
    Except String (Resp × World) :=
  match headerGet headers "Content-Length" with
  | none => .error "TypeError: int() argument is None"
  | some v =>
    match pyIntOfString v with
    | .error e => .error e
    | .ok n => .ok (dispatchPost env w (pyTake body n))

/-- The `try` body of the WSGI `app` for POST (api/index.py lines 122-136):
identical dispatch, except that `json.loads` failure is caught by the single
generic handler, whose message is the exception text rather than the fixed
`"Invalid JSON data"`. -/
def dispatchWsgi (env : Env) (w : World) (postData : String) : Resp × World :=
  match parseJson postData with
  | none => (.simple "error" "Expecting value", w)
  | some (.obj fields) => runAction env w ((jlookup fields "action").getD (Json.str ""))
  | some _ => (.simple "error" "AttributeError: get", w)

/-- The WSGI `app` (api/index.py lines 119-150): for POST, the whole body —
`int(environ.get('CONTENT_LENGTH', '0'))` included — runs inside the `try`,
so every failure becomes a status-and-message JSON body; for any other method
the is-running dictionary is returned.  The function always writes a JSON
body, hence always returns `Except.ok`. -/
def wsgi_app (env : Env) (w : World) (method : String) (contentLength : Option String)
    (body : String) : Except String (Resp × World) :=
  if method = "POST" then
    pyTry
      (match pyIntOfString (contentLength.getD "0") with
       | .error e => .error e
       | .ok n => .ok (dispatchWsgi env w (pyTake body n)))
      (fun e => .ok (.simple "error" e, w))
  else .ok (.running "Plant Diagnosis API is running" env.now, w)

/-- The rows matched by the pending query `is_('diagnosis', 'null')`: rows
whose diagnosis field is null. -/
def pendingRows (w : World) : List DbRow :=
  w.rows.filter (fun r => r.diagnosis.isNone)

/-- Modelled from the spec (section 6, Database query): select all records
where the diagnosis field is null.  The Supabase service itself is outside
src/, so its documented request/response contract is modelled here. -/
def dbSelect (w : World) : Except String (Option (List DbRow)) :=
  .ok (some (pendingRows w))

/-- The row transformation of the documented conditional update: set
diagnosis and updated-timestamp on every row whose id matches exactly. -/
def updRow (imageId diag ts : String) (r : DbRow) : DbRow :=
  if r.idKey = some imageId then { r with diagnosis := some diag, updatedAt := some ts }
  else r

/-- Modelled from the spec (section 6, Database update): conditional update of
the diagnosis and updated-timestamp fields by exact identifier match,
returning the affected rows (empty when no id matches).  The Supabase service
itself is outside src/, so its documented contract is modelled here. -/
def dbUpdate (w : World) (imageId diag ts : String) : Except String UpdateResult × World :=
  let rows2 := w.rows.map (updRow imageId diag ts)
  (.ok ⟨some (rows2.filter (fun r => r.idKey = some imageId))⟩, ⟨rows2⟩)

/-- An environment whose database operations follow the documented Supabase
contract (`dbSelect`/`dbUpdate`); storage and inference stay arbitrary. -/
def DbFaithful (env : Env) : Prop :=
  (∀ w, env.selectPending w = dbSelect w) ∧
  (∀ w i d t, env.updateImages w i d t = dbUpdate w i d t)

/-- All per-record guards pass for this record under this environment: the id
and storage-path keys are present, the storage path is truthy, the fetch
returns an image, and the diagnosis step returns validated text. -/
def RecSucceeds (env : Env) (r : DbRow) : Prop :=
  (∃ i, r.idKey = some i) ∧
  ∃ sp, r.storagePathKey = some sp ∧ sp ≠ "" ∧
    ∃ img, fetchImage env sp = some img ∧
      ∃ d, diagnose_plant env img (r.titleKey.getD "") = some d

/-- A concrete image used by the witness environments. -/
def sampleImage : PilImage := ⟨[1, 2]⟩

/-- A pending record used by the witnesses. -/
def rowPending : DbRow :=
  ⟨some "r1", some "img/1.jpg", some "yellow spots on tomato leaf", none, none⟩

/-- A one-row table whose only record is pending. -/
def w1 : World := ⟨[rowPending]⟩

/-- A fully cooperative environment: downloads succeed, the inference service
replies with the bare JSON text `"5"`, and the database follows the
documented Supabase contract. -/
def envOk : Env where
  download := fun _ => .ok (some [1, 2])
  createSignedUrl := fun _ _ => .ok (some ⟨some "https://signed.example/u", none⟩)
  httpGet := fun _ _ => .ok ⟨200, [3, 4]⟩
  openImage := fun bs => .ok ⟨bs⟩
  generateContent := fun _ _ => .ok "5"
  listBucket := .ok ["img"]
  selectPending := dbSelect
  updateImages := dbUpdate
  now := "2026-01-01T00:00:00"

/-- Like `envOk` but the direct download raises, so only the signed-URL
fallback can produce the image. -/
def envFallback : Env :=
  { envOk with download := fun _ => .error "StorageException" }

/-- Like `envOk` but the pending query raises. -/
def envQueryFail : Env :=
  { envOk with selectPending := fun _ => .error "connection refused" }

/-- Like `envOk` but listing the storage bucket raises, so the
storage-connection test fails. -/
def envNoBucket : Env :=
  { envOk with listBucket := .error "storage is down" }

/-- Relation used in the idempotence proof: how one row of the table evolves
across a batch run that processes the record list `rs`.  The id is preserved,
a non-null diagnosis stays non-null, and a row whose id is carried by a
processed record ends with a non-null diagnosis. -/
def StepDone (rs : List DbRow) (a b : DbRow) : Prop :=
  a.idKey = b.idKey ∧ (a.diagnosis.isSome → b.diagnosis.isSome) ∧
  (∀ r ∈ rs, r.idKey = a.idKey → r.idKey.isSome → b.diagnosis.isSome)

/- ------------------------------------------------------------------ -/
/- Helper lemmas. -/
/- ------------------------------------------------------------------ -/

theorem pyTry_const_ok {α : Type} (x : Except String α) (a : α) :
    ∃ o, pyTry x (fun _ => .ok a) = .ok o := by
  cases x with
  | ok b => exact ⟨b, rfl⟩
  | error e => exact ⟨a, rfl⟩

/-- The diagnosis text returned by `diagnose_plant` always parses as JSON. -/
theorem diagnose_plant_parses (env : Env) (img : PilImage) (t d : String)
    (h : diagnose_plant env img t = some d) : (parseJson d).isSome := by
  unfold diagnose_plant at h
  cases hg : env.generateContent (mkFullPrompt t) img with
  | error e => simp [hg] at h
  | ok reply =>
    simp only [hg] at h
    cases hp : parseJson (cleanJsonText reply) with
    | none => simp [hp] at h
    | some j =>
      simp [hp] at h
      rw [← h, hp]
      rfl

/-- The HTTP orchestrator never consults the bucket-listing oracle: the
record loop is unchanged when `listBucket` changes. -/
theorem runRecordsApi_env_listBucket (env : Env) (b : Except String (List String)) :
    ∀ (rs : List DbRow) (w : World),
      runRecordsApi { env with listBucket := b } w rs = runRecordsApi env w rs := by
  intro rs
  induction rs with
  | nil => intro w; rfl
  | cons r rest ih =>
    intro w
    have hp : processOneApi { env with listBucket := b } w r = processOneApi env w r := rfl
    simp only [runRecordsApi, hp, ih]

/- ------------------------------------------------------------------ -/
/- Claim theorems. -/
/- ------------------------------------------------------------------ -/

/-- C4: for every storage path and every behaviour of the storage and HTTP
collaborators (values, error values, or raised exceptions),
`get_image_from_storage` is total: it always returns `Except.ok` of an
optional image (the value `fetchImage` extracts) and never propagates an
exception to its caller. -/
theorem get_image_from_storage_never_raises (env : Env) (path : String) :
    get_image_from_storage env path = .ok (fetchImage env path) := by
  unfold fetchImage get_image_from_storage
  obtain ⟨o1, h1⟩ := pyTry_const_ok (fetchDirect env path) (none : Option PilImage)
  rw [h1]
  cases o1 with
  | some img => rfl
  | none =>
    obtain ⟨o2, h2⟩ := pyTry_const_ok (fetchSigned env path) (none : Option PilImage)
    rw [h2]
    cases o2 with
    | some img => rfl
    | none => rfl

/-- C3: if the direct authenticated download fails (raises, or returns no
data, or returns falsy empty bytes) while minting the signed URL succeeds
with a usable URL and the GET of that URL (issued with the fixed 3600-second
expiry and the bounded 30-second timeout, as witnessed by the hypotheses
constraining the environment only at those arguments) returns decodable image
bytes, then `get_image_from_storage` returns the image rather than a
failure. -/
theorem signed_url_fallback_returns_image (env : Env) (path url : String)
    (resp : SignedUrlResp) (hr : HttpResp) (img : PilImage)
    (hd : (∃ e, env.download path = .error e) ∨ env.download path = .ok none ∨
          env.download path = .ok (some []))
    (hs : env.createSignedUrl path 3600 = .ok (some resp))
    (hu : resp.signedURL = some url) (hne : url ≠ "")
    (hg : env.httpGet url 30 = .ok hr) (hst : hr.status < 400)
    (ho : env.openImage hr.content = .ok img) :
    get_image_from_storage env path = .ok (some img) ∧ fetchImage env path = some img := by
  have h400 : (400 ≤ hr.status) = False := by simp; omega
  have hdirect : pyTry (fetchDirect env path) (fun _ => .ok none) = .ok none := by
    rcases hd with ⟨e, he⟩ | he | he <;> simp [pyTry, fetchDirect, he]
  have hsigned : fetchSigned env path = .ok (some img) := by
    simp [fetchSigned, hs, hu, hne, hg, ho, h400]
  have hsigned2 : pyTry (fetchSigned env path) (fun _ => .ok none) = .ok (some img) := by
    rw [hsigned]; rfl
  have hget : get_image_from_storage env path = .ok (some img) := by
    unfold get_image_from_storage
    rw [hdirect, hsigned2]
    rfl
  exact ⟨hget, by simp [fetchImage, hget]⟩

/-- C6: given an inference reply, the result of `diagnose_plant` is exactly
determined by whether the cleaned reply text parses as JSON — the cleaned
text itself, verbatim, when it parses, and the sentinel `none` otherwise (an
inference-call exception also yields `none`). -/
theorem diagnose_plant_verbatim_or_none (env : Env) (img : PilImage) (userPrompt : String) :
    (∀ t, env.generateContent (mkFullPrompt userPrompt) img = .ok t →
       diagnose_plant env img userPrompt =
         (if (parseJson (cleanJsonText t)).isSome then some (cleanJsonText t) else none)) ∧
    (∀ e, env.generateContent (mkFullPrompt userPrompt) img = .error e →
       diagnose_plant env img userPrompt = none) := by
  constructor
  · intro t ht
    unfold diagnose_plant
    rw [ht]
    cases hp : parseJson (cleanJsonText t) <;> simp [hp]
  · intro e he
    unfold diagnose_plant
    rw [he]

/-- Witness for C6 at a concrete environment: the cooperative environment
replies with the bare text 5, which parses, so the cleaned text is returned
verbatim. -/
theorem diagnose_plant_verbatim_or_none_witness :
    diagnose_plant envOk sampleImage "caption" =
      (if (parseJson (cleanJsonText "5")).isSome then some (cleanJsonText "5") else none) :=
  (diagnose_plant_verbatim_or_none envOk sampleImage "caption").1 "5" rfl

/-- C10: the command-line driver `run_once` gates on the storage-connection
test: when listing the bucket fails the run returns with the table untouched
(no record mutated, no processing), while the HTTP orchestrator
`handle_diagnosis_request` is entirely independent of the bucket-listing
oracle and applies no such gate. -/
theorem run_once_storage_gate (env : Env) (w : World) :
    (test_storage_connection env = false → run_once env w = w) ∧
    (test_storage_connection env = true → run_once env w = process_new_images env w) ∧
    (∀ b, handle_diagnosis_request { env with listBucket := b } w =
            handle_diagnosis_request env w) := by
  refine ⟨fun h => by simp [run_once, h], fun h => by simp [run_once, h], fun b => ?_⟩
  have h1 : get_new_images { env with listBucket := b } w = get_new_images env w := rfl
  simp only [handle_diagnosis_request, h1, runRecordsApi_env_listBucket env b]

/-- Witness for C10: with the bucket listing raising, a one-shot run leaves a
table that still has a pending record completely unchanged. -/
theorem run_once_storage_gate_witness :
    test_storage_connection envNoBucket = false ∧
    run_once envNoBucket w1 = w1 ∧ pendingRows w1 ≠ [] :=
  ⟨rfl, (run_once_storage_gate envNoBucket w1).1 rfl, fun h => List.noConfusion h⟩

/-- C7 (counterexample to the claim as stated): when the pending query raises,
the orchestration run returns the plain success-shaped `emptySummary` — the
same value returned for a genuinely empty pending set — so the failure is NOT
wrapped as a top-level error outcome and is silently indistinguishable from
an empty pending set. -/
theorem query_failure_indistinguishable :
    (handle_diagnosis_request envQueryFail w1).1 = emptySummary ∧
    emptySummary.status = "success" ∧
    (handle_diagnosis_request { envQueryFail with selectPending := fun _ => .ok (some []) }
        w1).1 = emptySummary :=
  ⟨rfl, rfl, rfl⟩

/-- C7 (amended): when the pending query fails, `get_new_images` absorbs the
exception into an empty record list, so the orchestration run still returns
an aggregate summary — but it is the success-shaped empty summary with zero
processed records, identical to the reply for an empty pending set, with no
top-level error outcome. -/
theorem query_failure_empty_success_summary (env : Env) (w : World) :
    (∀ e, env.selectPending w = .error e →
       handle_diagnosis_request env w = (emptySummary, w)) ∧
    (env.selectPending w = .ok (some []) →
       handle_diagnosis_request env w = (emptySummary, w)) := by
  constructor
  · intro e he
    have h : get_new_images env w = [] := by simp [get_new_images, he]
    simp [handle_diagnosis_request, h]
  · intro he
    have h : get_new_images env w = [] := by simp [get_new_images, he]
    simp [handle_diagnosis_request, h]

/-- Witness for C7's amended theorem at the concrete failing environment. -/
theorem query_failure_empty_success_summary_witness :
    handle_diagnosis_request envQueryFail w1 = (emptySummary, w1) :=
  (query_failure_empty_success_summary envQueryFail w1).1 "connection refused" rfl

/-- Witness for C3 at a concrete environment whose direct download raises:
the image is obtained through the signed URL. -/
theorem signed_url_fallback_returns_image_witness :
    get_image_from_storage envFallback "img/1.jpg" = .ok (some ⟨[3, 4]⟩) ∧
    fetchImage envFallback "img/1.jpg" = some ⟨[3, 4]⟩ :=
  signed_url_fallback_returns_image envFallback "img/1.jpg" "https://signed.example/u"
    ⟨some "https://signed.example/u", none⟩ ⟨200, [3, 4]⟩ ⟨[3, 4]⟩
    (Or.inl ⟨"StorageException", rfl⟩) rfl rfl (by decide) rfl (by decide) rfl

/-- C1: for every record processed by either orchestrator loop, the database
update is invoked exactly when the storage-path guard, the image fetch and
the diagnosis validation all succeed; under any failure of those guards no
update call is made and the table (hence the record's diagnosis field) is
left unchanged, and every invoked update carries diagnosis text that parses
as JSON. -/
theorem update_invoked_iff_fetch_and_valid_json (env : Env) (w : World) (r : DbRow) :
    (((processOneApi env w r).calls ≠ []) ↔ RecSucceeds env r) ∧
    (((processOneOnce env w r).1 ≠ []) ↔ RecSucceeds env r) ∧
    ((processOneApi env w r).calls = [] → (processOneApi env w r).world = w) ∧
    ((processOneOnce env w r).1 = [] → (processOneOnce env w r).2 = w) ∧
    (∀ p ∈ (processOneApi env w r).calls, (parseJson p.2).isSome) := by
  cases hid : r.idKey with
  | none => simp [processOneApi, processOneOnce, RecSucceeds, hid]
  | some id =>
    cases hsp : r.storagePathKey with
    | none => simp [processOneApi, processOneOnce, RecSucceeds, hid, hsp]
    | some sp =>
      by_cases hspe : sp = ""
      · simp [processOneApi, processOneOnce, RecSucceeds, hid, hsp, hspe]
      · cases hf : fetchImage env sp with
        | none => simp [processOneApi, processOneOnce, RecSucceeds, hid, hsp, hspe, hf]
        | some img =>
          cases hdg : diagnose_plant env img (r.titleKey.getD "") with
          | none => simp [processOneApi, processOneOnce, RecSucceeds, hid, hsp, hspe, hf, hdg]
          | some diag =>
            have hrs : RecSucceeds env r := ⟨⟨id, hid⟩, sp, hsp, hspe, img, hf, diag, hdg⟩
            have hpar := diagnose_plant_parses env img (r.titleKey.getD "") diag hdg
            cases hu : update_diagnosis_in_db env w id diag with
            | mk b w2 =>
              cases b with
              | false =>
                simp [processOneApi, processOneOnce, hid, hsp, hspe, hf, hdg, hu, hrs, hpar]
              | true =>
                cases hpj : parseJson diag with
                | none => simp [hpj] at hpar
                | some j =>
                  simp [processOneApi, processOneOnce, hid, hsp, hspe, hf, hdg, hu, hpj,
                    hrs, hpar]

/-- Witness for C1: in the cooperative environment the single pending record
passes every guard, so the update is invoked for it. -/
theorem update_invoked_iff_fetch_and_valid_json_witness :
    (processOneApi envOk w1 rowPending).calls ≠ [] :=
  (update_invoked_iff_fetch_and_valid_json envOk w1 rowPending).1.mpr
    ⟨⟨"r1", rfl⟩, "img/1.jpg", rfl, by decide, sampleImage, rfl, "5", rfl⟩

/-- The outcome appended for a record always carries that record's id, with
the fallback id when even the id key is unavailable. -/
theorem processOneApi_outcome_id (env : Env) (w : World) (r : DbRow) :
    outcomeId (processOneApi env w r).outcome = r.idKey.getD "unknown" := by
  cases hid : r.idKey with
  | none => simp [processOneApi, outcomeId, hid]
  | some id =>
    cases hsp : r.storagePathKey with
    | none => simp [processOneApi, outcomeId, hid, hsp]
    | some sp =>
      by_cases hspe : sp = ""
      · simp [processOneApi, outcomeId, hid, hsp, hspe]
      · cases hf : fetchImage env sp with
        | none => simp [processOneApi, outcomeId, hid, hsp, hspe, hf]
        | some img =>
          cases hdg : diagnose_plant env img (r.titleKey.getD "") with
          | none => simp [processOneApi, outcomeId, hid, hsp, hspe, hf, hdg]
          | some diag =>
            cases hu : update_diagnosis_in_db env w id diag with
            | mk b w2 =>
              cases b with
              | false => simp [processOneApi, outcomeId, hid, hsp, hspe, hf, hdg, hu]
              | true =>
                cases hpj : parseJson diag with
                | none => simp [processOneApi, outcomeId, hid, hsp, hspe, hf, hdg, hu, hpj]
                | some j => simp [processOneApi, outcomeId, hid, hsp, hspe, hf, hdg, hu, hpj]

/-- A record contributes at most one to the processed count. -/
theorem processOneApi_inc_le (env : Env) (w : World) (r : DbRow) :
    (processOneApi env w r).inc ≤ 1 := by
  cases hid : r.idKey with
  | none => simp [processOneApi, hid]
  | some id =>
    cases hsp : r.storagePathKey with
    | none => simp [processOneApi, hid, hsp]
    | some sp =>
      by_cases hspe : sp = ""
      · simp [processOneApi, hid, hsp, hspe]
      · cases hf : fetchImage env sp with
        | none => simp [processOneApi, hid, hsp, hspe, hf]
        | some img =>
          cases hdg : diagnose_plant env img (r.titleKey.getD "") with
          | none => simp [processOneApi, hid, hsp, hspe, hf, hdg]
          | some diag =>
            cases hu : update_diagnosis_in_db env w id diag with
            | mk b w2 =>
              cases b with
              | false => simp [processOneApi, hid, hsp, hspe, hf, hdg, hu]
              | true =>
                cases hpj : parseJson diag with
                | none => simp [processOneApi, hid, hsp, hspe, hf, hdg, hu, hpj]
                | some j => simp [processOneApi, hid, hsp, hspe, hf, hdg, hu, hpj]

/-- Unfolding one step of the HTTP record loop. -/
theorem runRecordsApi_cons (env : Env) (w : World) (r : DbRow) (rest : List DbRow) :
    runRecordsApi env w (r :: rest) =
      ((processOneApi env w r).outcome ::
         (runRecordsApi env (processOneApi env w r).world rest).1,
       (processOneApi env w r).inc +
         (runRecordsApi env (processOneApi env w r).world rest).2.1,
       (runRecordsApi env (processOneApi env w r).world rest).2.2) := by
  simp [runRecordsApi]

/-- Shape facts about the HTTP record loop: one outcome per record, the
processed count bounded by the record count, and the i-th outcome carrying
the i-th record's id (or the fallback id). -/
theorem runRecordsApi_spec (env : Env) :
    ∀ (rs : List DbRow) (w : World),
      (runRecordsApi env w rs).1.length = rs.length ∧
      (runRecordsApi env w rs).2.1 ≤ rs.length ∧
      (∀ i (h1 : i < (runRecordsApi env w rs).1.length) (h2 : i < rs.length),
        outcomeId ((runRecordsApi env w rs).1.get ⟨i, h1⟩) =
          (rs.get ⟨i, h2⟩).idKey.getD "unknown") := by
  intro rs
  induction rs with
  | nil =>
    intro w
    exact ⟨rfl, Nat.le_refl 0, fun i h1 h2 => absurd h2 (Nat.not_lt_zero i)⟩
  | cons r rest ih =>
    intro w
    obtain ⟨ihlen, ihcnt, ihid⟩ := ih (processOneApi env w r).world
    rw [runRecordsApi_cons]
    have hinc := processOneApi_inc_le env w r
    refine ⟨by simp [ihlen], by simp only [List.length_cons]; omega, ?_⟩
    intro i h1 h2
    cases i with
    | zero => simpa using processOneApi_outcome_id env w r
    | succ n =>
      simp only [List.get_cons_succ]
      exact ihid n (by simpa using h1) (by simpa using h2)

/-- C2: the HTTP orchestrator appends exactly one outcome per queried record
(each carrying that record's id, or the fallback id when it is unavailable),
its processed count never exceeds the number of records queried, and an empty
pending set yields the fixed empty-success summary — so no single record's
failure can abort the batch. -/
theorem orchestrator_one_outcome_per_record (env : Env) (w : World) :
    ((handle_diagnosis_request env w).1.processed ≤ (get_new_images env w).length) ∧
    (get_new_images env w = [] → (handle_diagnosis_request env w).1 = emptySummary) ∧
    (get_new_images env w ≠ [] →
      ∃ os, (handle_diagnosis_request env w).1.results = some os ∧
        os.length = (get_new_images env w).length ∧
        ∀ i (h1 : i < os.length) (h2 : i < (get_new_images env w).length),
          outcomeId (os.get ⟨i, h1⟩) =
            ((get_new_images env w).get ⟨i, h2⟩).idKey.getD "unknown") := by
  by_cases hni : get_new_images env w = []
  · refine ⟨?_, fun _ => ?_, fun hne => absurd hni hne⟩
    · simp [handle_diagnosis_request, hni, emptySummary]
    · simp [handle_diagnosis_request, hni]
  · have hne : (get_new_images env w).isEmpty = false := by
      cases hl : get_new_images env w with
      | nil => exact absurd hl hni
      | cons a l => rfl
    obtain ⟨hlen, hcnt, hid⟩ := runRecordsApi_spec env (get_new_images env w) w
    have hh : handle_diagnosis_request env w =
        (⟨"success",
          "Processed " ++ toString (runRecordsApi env w (get_new_images env w)).2.1 ++
            " of " ++ toString (get_new_images env w).length ++ " images",
          (runRecordsApi env w (get_new_images env w)).2.1,
          some (runRecordsApi env w (get_new_images env w)).1⟩,
         (runRecordsApi env w (get_new_images env w)).2.2) := by
      simp [handle_diagnosis_request, hne]
    refine ⟨?_, fun h => absurd h hni, fun _ => ?_⟩
    · rw [hh]; exact hcnt
    · exact ⟨(runRecordsApi env w (get_new_images env w)).1, by rw [hh], hlen, hid⟩

/-- Witness for C2 at the cooperative environment and one-record table. -/
theorem orchestrator_one_outcome_per_record_witness :
    (handle_diagnosis_request envOk w1).1.processed ≤ (get_new_images envOk w1).length ∧
    ∃ os, (handle_diagnosis_request envOk w1).1.results = some os ∧
      os.length = (get_new_images envOk w1).length ∧
      ∀ i (h1 : i < os.length) (h2 : i < (get_new_images envOk w1).length),
        outcomeId (os.get ⟨i, h1⟩) =
          ((get_new_images envOk w1).get ⟨i, h2⟩).idKey.getD "unknown" :=
  ⟨(orchestrator_one_outcome_per_record envOk w1).1,
   (orchestrator_one_outcome_per_record envOk w1).2.2 (by decide)⟩

/-- C9 (counterexample to the claim as stated): a POST whose headers lack a
Content-Length (or carry a non-numeric one) makes `do_POST` raise on
`int(self.headers['Content-Length'])` before reaching the protective `try`,
so no structured JSON body is produced for that request. -/
theorem post_without_content_length_raises :
    do_POST envOk w1 [] "sample" = .error "TypeError: int() argument is None" ∧
    do_POST envOk w1 [("Content-Type", "application/json")] "sample" =
      .error "TypeError: int() argument is None" ∧
    do_POST envOk w1 [("Content-Length", "abc")] "sample" =
      .error "ValueError: invalid literal for int" :=
  ⟨rfl, rfl, rfl⟩

/-- C9 (amended): the WSGI entry point converts every failure of a POST into
a structured status-and-message JSON body, whatever the CONTENT_LENGTH value,
and serves non-POST requests a JSON body as well; the BaseHTTPRequestHandler
entry point produces a structured JSON body for every POST that carries a
parseable Content-Length header (the dispatch result), its only uncovered
path being the pre-`try` Content-Length conversion. -/
theorem http_structured_json_responses (env : Env) (w : World) :
    (∀ hs body v n, headerGet hs "Content-Length" = some v → pyIntOfString v = .ok n →
       do_POST env w hs body = .ok (dispatchPost env w (pyTake body n))) ∧
    (∀ cl body, ∃ r w2, wsgi_app env w "POST" cl body = .ok (r, w2)) ∧
    (∀ m cl body, m ≠ "POST" → ∃ r w2, wsgi_app env w m cl body = .ok (r, w2)) := by
  refine ⟨fun hs body v n h1 h2 => ?_, fun cl body => ?_, fun m cl body hm => ?_⟩
  · simp [do_POST, h1, h2]
  · unfold wsgi_app
    cases hint : pyIntOfString (cl.getD "0") with
    | error e => exact ⟨.simple "error" e, w, by simp [hint, pyTry]⟩
    | ok n =>
      exact ⟨(dispatchWsgi env w (pyTake body n)).1, (dispatchWsgi env w (pyTake body n)).2,
        by simp [hint, pyTry]⟩
  · simp [wsgi_app, hm]

/-- Witness for C9's amended theorem: a well-formed POST with Content-Length
header receives the structured dispatch result. -/
theorem http_structured_json_responses_witness :
    do_POST envOk w1 [("Content-Length", "5")] "5" =
      .ok (dispatchPost envOk w1 (pyTake "5" 5)) :=
  (http_structured_json_responses envOk w1).1 [("Content-Length", "5")] "5" "5" 5 rfl rfl

/-- A list is a Boolean prefix of itself followed by anything. -/
theorem isPrefixOf_append_self (l t : List Char) : l.isPrefixOf (l ++ t) = true := by
  induction l with
  | nil => cases t <;> rfl
  | cons c cs ih =>
    show (c == c && cs.isPrefixOf (cs ++ t)) = true
    have hc : (c == c) = true := by simp
    rw [hc, ih]
    rfl

/-- The first component of an appended word is a Boolean prefix of any list
the whole word is a Boolean prefix of. -/
theorem isPrefixOf_of_append :
    ∀ (a b l : List Char), (a ++ b).isPrefixOf l = true → a.isPrefixOf l = true := by
  intro a
  induction a with
  | nil => intro b l h; cases l <;> rfl
  | cons c cs ih =>
    intro b l h
    cases l with
    | nil => exact Bool.noConfusion h
    | cons d ds =>
      have h2 : (c == d && (cs ++ b).isPrefixOf ds) = true := h
      have hcd : (c == d) = true := by
        cases hcd : c == d with
        | false => rw [hcd] at h2; exact Bool.noConfusion h2
        | true => rfl
      have htail : (cs ++ b).isPrefixOf ds = true := by
        rw [hcd] at h2; exact h2
      show (c == d && cs.isPrefixOf ds) = true
      rw [hcd, ih b ds htail]
      rfl

/-- A list is a Boolean suffix of anything followed by itself. -/
theorem isSuffixOf_append_self (l t : List Char) : l.isSuffixOf (t ++ l) = true := by
  simp [List.isSuffixOf, List.reverse_append, isPrefixOf_append_self]

/-- If dropping leading whitespace from a cons leaves it unchanged, its head
is not whitespace. -/
theorem head_not_ws (c : Char) (t : List Char)
    (h : (c :: t).dropWhile isPyWs = c :: t) : isPyWs c = false := by
  cases hc : isPyWs c with
  | false => rfl
  | true =>
    simp [List.dropWhile, hc] at h
    have hsub : List.Sublist (List.dropWhile isPyWs t) t := List.dropWhile_sublist _
    have hlen := hsub.length_le
    rw [h] at hlen
    simp [List.length_cons] at hlen

/-- Stripping leaves a list unchanged when its first and last characters are
not whitespace. -/
theorem stripChars_sandwich (a b : Char) (m : List Char) (ha : isPyWs a = false)
    (hb : isPyWs b = false) : stripChars (a :: (m ++ [b])) = a :: (m ++ [b]) := by
  unfold stripChars
  have hd1 : (a :: (m ++ [b])).dropWhile isPyWs = a :: (m ++ [b]) := by
    simp [List.dropWhile, ha]
  rw [hd1]
  have hrev : (a :: (m ++ [b])).reverse = b :: (m.reverse ++ [a]) := by simp
  rw [hrev]
  have hd2 : (b :: (m.reverse ++ [a])).dropWhile isPyWs = b :: (m.reverse ++ [a]) := by
    simp [List.dropWhile, hb]
  rw [hd2]
  simp

/-- Stripping a pre-stripped payload that was surrounded by single newlines
recovers the payload. -/
theorem stripChars_newline_wrap (x : List Char)
    (h1 : x.dropWhile isPyWs = x) (h2 : x.reverse.dropWhile isPyWs = x.reverse) :
    stripChars ('\n' :: (x ++ ['\n'])) = x := by
  have hnl : isPyWs '\n' = true := rfl
  cases x with
  | nil => rfl
  | cons c t =>
    have hc : isPyWs c = false := head_not_ws c t h1
    unfold stripChars
    have e1 : ('\n' :: ((c :: t) ++ ['\n'])).dropWhile isPyWs = c :: (t ++ ['\n']) := by
      simp [List.dropWhile, hnl, hc]
    rw [e1]
    have e2 : (c :: (t ++ ['\n'])).reverse = '\n' :: (c :: t).reverse := by simp
    rw [e2]
    have e3 : ('\n' :: (c :: t).reverse).dropWhile isPyWs =
        (c :: t).reverse.dropWhile isPyWs := by
      simp [List.dropWhile, hnl]
    rw [e3, h2]
    simp

/-- The json-tagged fence marker is not a Boolean prefix of a bare fence
marker followed by a newline. -/
theorem fenceJson_not_prefix_nl (rest : List Char) :
    fenceJson.isPrefixOf (btick :: btick :: btick :: '\n' :: rest) = false := by
  have h : ('j' == '\n') = false := rfl
  simp [fenceJson, List.isPrefixOf, h]

/-- Taking everything but the trailing fence marker recovers the head of the
concatenation. -/
theorem take_before_fence (x : List Char) :
    (x ++ fence3).take ((x ++ fence3).length - fence3.length) = x := by
  have hl : (x ++ fence3).length - fence3.length = x.length := by simp
  rw [hl, List.take_left]

/-- C5 (counterexample to the claim as stated): the cleanup only recognises
the json language tag (and the bare marker), so a reply wrapped with the xml
language tag keeps the tag text: the wrapped reply fails to parse while the
identical unwrapped reply parses — the two do not yield the same JSON
object. -/
theorem fence_language_tag_counterexample :
    cleanJsonText (wrapFenced "xml" "5") = "xml\n5" ∧
    parseJson (cleanJsonText (wrapFenced "xml" "5")) = none ∧
    parseJson (cleanJsonText "5") = some (Json.num 5) ∧
    parseJson (cleanJsonText (wrapFenced "xml" "5")) ≠ parseJson (cleanJsonText "5") := by
  refine ⟨rfl, rfl, rfl, ?_⟩
  intro h
  have ha : (parseJson (cleanJsonText (wrapFenced "xml" "5"))).isSome = false := rfl
  have hb : (parseJson (cleanJsonText "5")).isSome = true := rfl
  rw [h, hb] at ha
  exact Bool.noConfusion ha

/-- C5 (amended): for replies that carry no surrounding whitespace and do not
themselves begin or end with a fence marker, wrapping in a fenced code block
with the json language tag or with no language tag is undone exactly by the
cleanup — the cleaned text equals the cleaned unwrapped reply, so both parse
to the same JSON object. -/
theorem fence_clean_wrapped_eq_unwrapped (s : String)
    (h1 : s.data.dropWhile isPyWs = s.data)
    (h2 : s.data.reverse.dropWhile isPyWs = s.data.reverse)
    (h3 : fence3.isPrefixOf s.data = false)
    (h4 : fence3.isSuffixOf s.data = false) :
    cleanJsonText (wrapFenced "json" s) = s ∧
    cleanJsonText (wrapFenced "" s) = s ∧
    cleanJsonText s = s ∧
    parseJson (cleanJsonText (wrapFenced "json" s)) = parseJson (cleanJsonText s) ∧
    parseJson (cleanJsonText (wrapFenced "" s)) = parseJson (cleanJsonText s) := by
  have hstrip : stripChars s.data = s.data := by
    unfold stripChars
    rw [h1, h2, List.reverse_reverse]
  have hjfalse : fenceJson.isPrefixOf s.data = false := by
    cases hfj : fenceJson.isPrefixOf s.data with
    | false => rfl
    | true =>
      have hfe : fenceJson = fence3 ++ ['j', 's', 'o', 'n'] := rfl
      rw [hfe] at hfj
      have hft := isPrefixOf_of_append fence3 ['j', 's', 'o', 'n'] s.data hfj
      rw [hft] at h3
      exact Bool.noConfusion h3
  have hclean_s : cleanJsonText s = s := by
    simp only [cleanJsonText, hstrip, hjfalse, h3, h4, Bool.false_eq_true, if_false]
  have hmid : ∀ tail : List Char, tail = '\n' :: s.data ++ '\n' :: fence3 →
      (if fence3.isSuffixOf tail then tail.take (tail.length - fence3.length) else tail) =
        '\n' :: (s.data ++ ['\n']) := by
    intro tail htail
    have hshape : tail = ('\n' :: s.data ++ ['\n']) ++ fence3 := by simp [htail]
    rw [hshape, isSuffixOf_append_self, if_pos rfl, take_before_fence]
    simp
  have hcore : stripChars ('\n' :: (s.data ++ ['\n'])) = s.data :=
    stripChars_newline_wrap s.data h1 h2
  have hjson : cleanJsonText (wrapFenced "json" s) = s := by
    have hwd : (wrapFenced "json" s).data =
        fenceJson ++ ('\n' :: s.data ++ '\n' :: fence3) := by
      have hj : ("json" : String).data = ['j', 's', 'o', 'n'] := rfl
      simp [wrapFenced, fenceJson, fence3, hj]
    have hsand : stripChars (wrapFenced "json" s).data = (wrapFenced "json" s).data := by
      have hshape : (wrapFenced "json" s).data =
          btick :: ((btick :: btick :: 'j' :: 's' :: 'o' :: 'n' :: '\n' :: s.data ++
            ['\n', btick, btick]) ++ [btick]) := by
        have hj : ("json" : String).data = ['j', 's', 'o', 'n'] := rfl
        simp [wrapFenced, fence3, hj]
      rw [hshape, stripChars_sandwich btick btick _ rfl rfl]
    rw [hwd] at hsand
    simp only [cleanJsonText, hwd, hsand, isPrefixOf_append_self, if_true, List.drop_left]
    rw [hmid _ rfl, hcore]
  have hempty : cleanJsonText (wrapFenced "" s) = s := by
    have hwd : (wrapFenced "" s).data =
        btick :: btick :: btick :: '\n' :: (s.data ++ '\n' :: fence3) := by
      have hj : ("" : String).data = [] := rfl
      simp [wrapFenced, fence3, hj]
    have hsand : stripChars (wrapFenced "" s).data = (wrapFenced "" s).data := by
      have hshape : (wrapFenced "" s).data =
          btick :: ((btick :: btick :: '\n' :: s.data ++ ['\n', btick, btick]) ++
            [btick]) := by
        have hj : ("" : String).data = [] := rfl
        simp [wrapFenced, fence3, hj]
      rw [hshape, stripChars_sandwich btick btick _ rfl rfl]
    have hpre3 : fence3.isPrefixOf (wrapFenced "" s).data = true := by
      have hshape2 : (wrapFenced "" s).data = fence3 ++ ('\n' :: s.data ++ '\n' :: fence3) := by
        have hj : ("" : String).data = [] := rfl
        simp [wrapFenced, fence3, hj]
      rw [hshape2, isPrefixOf_append_self]
    have hprej : fenceJson.isPrefixOf (wrapFenced "" s).data = false := by
      rw [hwd]
      exact fenceJson_not_prefix_nl _
    have hdrop : (wrapFenced "" s).data.drop fence3.length =
        '\n' :: s.data ++ '\n' :: fence3 := by
      have hshape2 : (wrapFenced "" s).data = fence3 ++ ('\n' :: s.data ++ '\n' :: fence3) := by
        have hj : ("" : String).data = [] := rfl
        simp [wrapFenced, fence3, hj]
      rw [hshape2, List.drop_left]
    rw [show cleanJsonText (wrapFenced "" s) =
      String.mk (stripChars
        (if fence3.isSuffixOf ((wrapFenced "" s).data.drop fence3.length) = true then
          ((wrapFenced "" s).data.drop fence3.length).take
            (((wrapFenced "" s).data.drop fence3.length).length - fence3.length)
        else (wrapFenced "" s).data.drop fence3.length) : List Char) from by
        simp only [cleanJsonText, hsand, hprej, Bool.false_eq_true, if_false, hpre3, if_true]]
    rw [hdrop, hmid _ rfl, hcore]
  exact ⟨hjson, hempty, hclean_s, by rw [hjson, hclean_s], by rw [hempty, hclean_s]⟩

/-- Witness for C5's amended theorem at the concrete reply 5: wrapping with
the json tag or no tag cleans back to the bare reply. -/
theorem fence_clean_wrapped_eq_unwrapped_witness :
    cleanJsonText (wrapFenced "json" "5") = "5" ∧
    cleanJsonText (wrapFenced "" "5") = "5" ∧
    cleanJsonText "5" = "5" ∧
    parseJson (cleanJsonText (wrapFenced "json" "5")) = parseJson (cleanJsonText "5") ∧
    parseJson (cleanJsonText (wrapFenced "" "5")) = parseJson (cleanJsonText "5") :=
  fence_clean_wrapped_eq_unwrapped "5" rfl rfl rfl rfl

/-- The documented conditional update preserves each row's id. -/
theorem updRow_id (i d t : String) (r : DbRow) : (updRow i d t r).idKey = r.idKey := by
  unfold updRow
  split <;> rfl

/-- The documented conditional update never nulls a diagnosis. -/
theorem updRow_mono (i d t : String) (r : DbRow)
    (h : r.diagnosis.isSome = true) : (updRow i d t r).diagnosis.isSome = true := by
  unfold updRow
  split <;> simp [h]

/-- The documented conditional update sets a non-null diagnosis on every row
whose id matches. -/
theorem updRow_hit (i d t : String) (r : DbRow) (h : r.idKey = some i) :
    (updRow i d t r).diagnosis.isSome = true := by
  simp [updRow, h]

/-- A list is pointwise related to its image under a map. -/
theorem forall2_map_self {R : DbRow → DbRow → Prop} (f : DbRow → DbRow) :
    ∀ l : List DbRow, (∀ a ∈ l, R a (f a)) → List.Forall₂ R l (l.map f) := by
  intro l
  induction l with
  | nil => intro _; exact List.Forall₂.nil
  | cons a l ih =>
    intro h
    exact List.Forall₂.cons (h a (List.mem_cons_self a l))
      (ih fun a2 ha2 => h a2 (List.mem_cons_of_mem a ha2))

/-- Pointwise relations compose along two pointwise-related list pairs. -/
theorem forall2_comp {P Q R : DbRow → DbRow → Prop}
    (h : ∀ a b c, P a b → Q b c → R a c) :
    ∀ {l1 l2 : List DbRow}, List.Forall₂ P l1 l2 →
      ∀ {l3 : List DbRow}, List.Forall₂ Q l2 l3 → List.Forall₂ R l1 l3 := by
  intro l1 l2 hpq
  induction hpq with
  | nil =>
    intro l3 hq
    cases hq
    exact List.Forall₂.nil
  | cons hab htail ih =>
    intro l3 hq
    cases hq with
    | cons hbc htail2 => exact List.Forall₂.cons (h _ _ _ hab hbc) (ih htail2)

/-- Under the documented database contract, processing a record that passes
every guard replaces the table by its conditional update at that record's id
(whether or not the update reports affected rows). -/
theorem processOneApi_world_succ (env : Env) (w : World) (r : DbRow)
    (hdb : DbFaithful env) (hs : RecSucceeds env r) :
    ∃ i d, r.idKey = some i ∧
      (processOneApi env w r).world = ⟨w.rows.map (updRow i d env.now)⟩ := by
  obtain ⟨⟨i, hi⟩, sp, hsp, hne, img, hf, d, hd⟩ := hs
  refine ⟨i, d, hi, ?_⟩
  have hupd : update_diagnosis_in_db env w i d =
      (!((w.rows.map (updRow i d env.now)).filter
          (fun r2 => r2.idKey = some i)).isEmpty,
       ⟨w.rows.map (updRow i d env.now)⟩) := by
    simp [update_diagnosis_in_db, hdb.2, dbUpdate]
  cases hb : ((w.rows.map (updRow i d env.now)).filter
      (fun r2 => r2.idKey = some i)).isEmpty with
  | true => simp [processOneApi, hi, hsp, hne, hf, hd, hupd, hb]
  | false =>
    cases hpj : parseJson d with
    | none => simp [processOneApi, hi, hsp, hne, hf, hd, hupd, hb, hpj]
    | some j => simp [processOneApi, hi, hsp, hne, hf, hd, hupd, hb, hpj]

/-- Under the documented database contract, a batch run over records that all
pass their guards relates the initial and final tables row by row: ids are
preserved, non-null diagnoses stay non-null, and every row whose id is
carried by a processed record ends non-null. -/
theorem runRecordsApi_forall2 (env : Env) (hdb : DbFaithful env) :
    ∀ (rs : List DbRow), (∀ r ∈ rs, RecSucceeds env r) →
      ∀ w : World,
        List.Forall₂ (StepDone rs) w.rows ((runRecordsApi env w rs).2.2).rows := by
  intro rs
  induction rs with
  | nil =>
    intro _ w
    exact List.forall₂_same.mpr fun a _ =>
      ⟨rfl, fun h => h, fun r hr => absurd hr (List.not_mem_nil r)⟩
  | cons r rest ih =>
    intro hall w
    have hr : RecSucceeds env r := hall r (List.mem_cons_self r rest)
    obtain ⟨i, d, hi, hw⟩ := processOneApi_world_succ env w r hdb hr
    rw [runRecordsApi_cons, hw]
    have ihh := ih (fun r2 hr2 => hall r2 (List.mem_cons_of_mem r hr2))
      ⟨w.rows.map (updRow i d env.now)⟩
    have h1 : List.Forall₂ (fun a b => b = updRow i d env.now a) w.rows
        (w.rows.map (updRow i d env.now)) := forall2_map_self _ w.rows (fun _ _ => rfl)
    refine forall2_comp ?_ h1 ihh
    intro a b c hab hbc
    subst hab
    obtain ⟨hid1, hmono1, hclause1⟩ := hbc
    refine ⟨by rw [← hid1, updRow_id], fun hsome => hmono1 (updRow_mono i d env.now a hsome),
      ?_⟩
    intro r2 hr2 hrid hrsome
    rcases List.mem_cons.mp hr2 with heq | hr2rest
    · have ha : a.idKey = some i := by rw [← hrid, heq, hi]
      exact hmono1 (updRow_hit i d env.now a ha)
    · exact hclause1 r2 hr2rest (by rw [updRow_id]; exact hrid) hrsome

/-- Extraction step for the idempotence argument: if every initially pending
row is covered by a processed record, every row of the final table has a
non-null diagnosis. -/
theorem forall2_stepdone_all_some (rs : List DbRow) :
    ∀ {l1 l2 : List DbRow}, List.Forall₂ (StepDone rs) l1 l2 →
      (∀ a ∈ l1, a.diagnosis.isSome = true ∨
        ∃ r, r ∈ rs ∧ r.idKey = a.idKey ∧ r.idKey.isSome = true) →
      ∀ b ∈ l2, b.diagnosis.isSome = true := by
  intro l1 l2 hf
  induction hf with
  | nil => intro _ b hb; exact absurd hb (List.not_mem_nil b)
  | cons hab htail ih =>
    intro hside b2 hb2
    rcases List.mem_cons.mp hb2 with heq | hmem
    · subst heq
      rcases hside _ (List.mem_cons_self _ _) with hsome | ⟨r, hrmem, hrid, hrsome⟩
      · exact hab.2.1 hsome
      · exact hab.2.2 r hrmem hrid hrsome
    · exact ih (fun a ha => hside a (List.mem_cons_of_mem _ ha)) b2 hmem

/-- After a batch run in which every pending record passes its guards (with
the documented database contract), every row of the table has a non-null
diagnosis. -/
theorem pending_all_some_after_success (env : Env) (w : World) (hdb : DbFaithful env)
    (hall : ∀ r ∈ pendingRows w, RecSucceeds env r) :
    ∀ b ∈ ((runRecordsApi env w (pendingRows w)).2.2).rows, b.diagnosis.isSome = true := by
  have hf := runRecordsApi_forall2 env hdb (pendingRows w) hall w
  refine forall2_stepdone_all_some (pendingRows w) hf ?_
  intro a ha
  cases hsome : a.diagnosis.isSome with
  | true => exact Or.inl rfl
  | false =>
    right
    have hmem : a ∈ pendingRows w := by
      unfold pendingRows
      refine List.mem_filter.mpr ⟨ha, ?_⟩
      cases hd : a.diagnosis with
      | none => rfl
      | some x => rw [hd] at hsome; exact Bool.noConfusion hsome
    obtain ⟨⟨i, hi⟩, _⟩ := hall a hmem
    exact ⟨a, hmem, rfl, by rw [hi]; rfl⟩

/-- C8: the persistence updater returns true exactly when the update call
succeeds and reports affected-row data (a raised error and a zero-row result
are treated identically as false); consequently, under the documented
database contract, a run in which every pending record passes its guards
leaves no pending records, and an immediately following orchestration run
processes zero records, returning the empty-success summary with the table
unchanged. -/
theorem update_semantics_and_idempotence :
    (∀ env w i d, (update_diagnosis_in_db env w i d).1 = true ↔
       ∃ res w2, env.updateImages w i d env.now = (.ok res, w2) ∧
         ∃ l, res.data = some l ∧ l ≠ []) ∧
    (∀ env w, DbFaithful env → (∀ r ∈ pendingRows w, RecSucceeds env r) →
       pendingRows (handle_diagnosis_request env w).2 = [] ∧
       handle_diagnosis_request env (handle_diagnosis_request env w).2 =
         (emptySummary, (handle_diagnosis_request env w).2)) := by
  constructor
  · intro env w i d
    cases hu : env.updateImages w i d env.now with
    | mk exc w2 =>
      cases exc with
      | error e => simp [update_diagnosis_in_db, hu]
      | ok res =>
        cases hd : res.data with
        | none => simp [update_diagnosis_in_db, hu, hd]
        | some l => simp [update_diagnosis_in_db, hu, hd]
  · intro env w hdb hall
    have hgni : ∀ w2, get_new_images env w2 = pendingRows w2 := fun w2 => by
      simp [get_new_images, hdb.1, dbSelect]
    have hempty_handle : ∀ w2, pendingRows w2 = [] →
        handle_diagnosis_request env w2 = (emptySummary, w2) := fun w2 hp => by
      simp [handle_diagnosis_request, hgni w2, hp]
    by_cases hp : pendingRows w = []
    · have h1 := hempty_handle w hp
      rw [h1]
      exact ⟨hp, hempty_handle w hp⟩
    · have hne : (get_new_images env w).isEmpty = false := by
        rw [hgni w]
        cases hl : pendingRows w with
        | nil => exact absurd hl hp
        | cons a l => rfl
      have hworld : (handle_diagnosis_request env w).2 =
          (runRecordsApi env w (pendingRows w)).2.2 := by
        simp [handle_diagnosis_request, hne, hgni w, hp]
      have hsome := pending_all_some_after_success env w hdb hall
      have hpe : pendingRows (handle_diagnosis_request env w).2 = [] := by
        rw [hworld]
        unfold pendingRows
        refine List.filter_eq_nil_iff.mpr ?_
        intro a ha
        have hs := hsome a ha
        cases hd : a.diagnosis with
        | none => rw [hd] at hs; exact Bool.noConfusion hs
        | some x => simp [hd]
      exact ⟨hpe, hempty_handle _ hpe⟩

/-- Witness for C8 at the cooperative environment: the update succeeds, the
run leaves no pending record, and the second run returns the empty-success
summary. -/
theorem update_semantics_and_idempotence_witness :
    (update_diagnosis_in_db envOk w1 "r1" "5").1 = true ∧
    pendingRows (handle_diagnosis_request envOk w1).2 = [] ∧
    handle_diagnosis_request envOk (handle_diagnosis_request envOk w1).2 =
      (emptySummary, (handle_diagnosis_request envOk w1).2) := by
  have hdb : DbFaithful envOk := ⟨fun _ => rfl, fun _ _ _ _ => rfl⟩
  have hall : ∀ r ∈ pendingRows w1, RecSucceeds envOk r := by
    intro r hr
    have hr1 : r = rowPending := by
      have : pendingRows w1 = [rowPending] := rfl
      rw [this] at hr
      exact List.mem_singleton.mp hr
    subst hr1
    exact ⟨⟨"r1", rfl⟩, "img/1.jpg", rfl, by decide, sampleImage, rfl, "5", rfl⟩
  have h2 := (update_semantics_and_idempotence.2 envOk w1 hdb hall)
  refine ⟨?_, h2.1, h2.2⟩
  exact (update_semantics_and_idempotence.1 envOk w1 "r1" "5").mpr
    ⟨⟨some [⟨some "r1", some "img/1.jpg", some "yellow spots on tomato leaf", some "5",
        some "2026-01-01T00:00:00"⟩]⟩,
     ⟨[⟨some "r1", some "img/1.jpg", some "yellow spots on tomato leaf", some "5",
        some "2026-01-01T00:00:00"⟩]⟩, rfl, _, rfl, by simp⟩

end PlantDiagnosis
